import Mathlib

/-!
Shallow embedding of the core tracking / campaign / verification logic of the
stika backend (Django), together with theorems settling the frozen claims.

Monetary and measured quantities (Python `Decimal`) are modelled as rationals:
all operations involved are addition, multiplication and comparison, which
`Decimal` performs exactly.  Timestamps are modelled as integer seconds.
-/

namespace Stika

/-- Rate kinds accepted by EarningsCalculation.EARNINGS_TYPE_CHOICES
(apps/tracking/models.py). -/
inductive EarningsType
  | distance
  | time
  | fixed
  | hybrid
  | bonus
  | correction
deriving DecidableEq, Repr

/-- The fields of apps/campaigns/models.py CampaignGeofence that the embedded
operations read or write.  `status_active` is `status == 'active'`,
`in_window` is `start_date <= now <= end_date`, `campaign_active` is
`campaign.is_active` (all evaluated at the moment of the operation). -/
structure CampaignGeofence where
  id : Nat
  status_active : Bool
  in_window : Bool
  campaign_active : Bool
  priority : Nat
  is_high_priority : Bool
  radius_meters : ℚ
  budget : ℚ
  spent : ℚ
  rate_per_km : ℚ
  rate_per_hour : ℚ
  fixed_daily_rate : ℚ
  max_riders : Nat
  current_riders : Nat
deriving DecidableEq, Repr

/-- CampaignGeofence.is_active (property): status active, now inside the
start/end window, and the parent campaign active. -/
def CampaignGeofence.is_active (g : CampaignGeofence) : Bool :=
  g.status_active && g.in_window && g.campaign_active

/-- CampaignGeofence.is_full: `current_riders >= max_riders`. -/
def CampaignGeofence.is_full (g : CampaignGeofence) : Bool :=
  decide (g.max_riders ≤ g.current_riders)

/-- CampaignGeofence.remaining_budget: `max(0, budget - spent)`. -/
def CampaignGeofence.remaining_budget (g : CampaignGeofence) : ℚ :=
  max 0 (g.budget - g.spent)

/-- CampaignGeofence.can_assign_rider: active, not full, remaining budget
strictly positive. -/
def CampaignGeofence.can_assign_rider (g : CampaignGeofence) : Bool :=
  g.is_active && !g.is_full && decide (0 < g.remaining_budget)

/-- EarningsCalculator._calculate_amount_manual (apps/tracking/services.py):
dispatch on the earnings type; the if/elif chain has no branch for `bonus`
or `correction`, so control falls through to `Decimal('0.00')`. -/
def calculate_amount_manual (g : CampaignGeofence) (earnings_type : EarningsType)
    (distance_km duration_hours : ℚ) : ℚ :=
  match earnings_type with
  | .distance => distance_km * g.rate_per_km
  | .time => duration_hours * g.rate_per_hour
  | .fixed => g.fixed_daily_rate
  | .hybrid => distance_km * g.rate_per_km + duration_hours * g.rate_per_hour
  | .bonus => 0
  | .correction => 0

/-- EarningsCalculator._calculate_amount (apps/tracking/services.py): the
session-based variant; `duration_hours = duration_minutes / 60`. -/
def calculate_amount (g : CampaignGeofence) (earnings_type : EarningsType)
    (distance_covered : ℚ) (duration_minutes : ℚ) : ℚ :=
  match earnings_type with
  | .distance => distance_covered * g.rate_per_km
  | .time => duration_minutes / 60 * g.rate_per_hour
  | .fixed => g.fixed_daily_rate
  | .hybrid =>
      distance_covered * g.rate_per_km + duration_minutes / 60 * g.rate_per_hour
  | .bonus => 0
  | .correction => 0

/-! ### Presence detection (apps/tracking/services.py, LocationProcessor) -/

/-- GeofenceEntry.entry_type choices. -/
inductive EntryType
  | enter
  | exit
deriving DecidableEq, Repr

/-- LocationProcessor.geofence_tolerance: 50 meters. -/
def geofence_tolerance : ℚ := 50

/-- LocationProcessor._check_geofence_event decision: given the distance from
the sample to the geofence center, the radius, and the rider's most recent
GeofenceEntry for this geofence (ordering `-recorded_at`, so `.first()` is the
latest), return the event emitted, if any.  The code computes
`is_inside = distance <= radius_meters + tolerance`, emits an enter event when
inside and (no prior event or prior event was an exit), an exit event when
outside and the prior event was an enter, and nothing otherwise. -/
def check_geofence_event (distance_to_center radius_meters : ℚ)
    (last_event : Option EntryType) : Option EntryType :=
  if distance_to_center ≤ radius_meters + geofence_tolerance then
    if last_event = none ∨ last_event = some EntryType.exit then
      some EntryType.enter
    else none
  else
    if last_event = some EntryType.enter then some EntryType.exit
    else none

/-! ### Rider sessions (apps/tracking/models.py, RiderSession) -/

/-- RiderSession.SESSION_STATUS_CHOICES. -/
inductive SessionStatus
  | active
  | completed
  | abandoned
deriving DecidableEq, Repr

/-- The RiderSession fields touched by close_session / calculate_duration.
`end_entry` holds the id of the closing GeofenceEntry. -/
structure RiderSession where
  started_at : Int
  ended_at : Option Int
  end_entry : Option Nat
  duration_minutes : Int
  status : SessionStatus
deriving DecidableEq, Repr

/-- RiderSession.calculate_duration: `int(delta.total_seconds() / 60)` when
both timestamps are set, else 0.  Python `int` truncates toward zero, which on
integer-second timestamps is `Int.tdiv`. -/
def calculate_duration (s : RiderSession) : Int :=
  match s.ended_at with
  | some e => (e - s.started_at).tdiv 60
  | none => 0

/-- RiderSession.close_session: only when the session is active, set the end
entry reference, `ended_at` to the exit event's recorded time, the status to
completed, and recompute the duration; otherwise do nothing. -/
def close_session (s : RiderSession) (exit_event_id : Nat)
    (exit_recorded_at : Int) : RiderSession :=
  if s.status = SessionStatus.active then
    let s1 : RiderSession :=
      { s with
        end_entry := some exit_event_id
        ended_at := some exit_recorded_at
        status := SessionStatus.completed }
    { s1 with duration_minutes := calculate_duration s1 }
  else s

/-! ### Session distance (apps/tracking/services.py,
LocationProcessor._calculate_session_distance) -/

/-- A GPS point; the concrete distance function between points is kept
abstract (GEOS `Point.distance`). -/
structure GeoPoint where
  x : ℚ
  y : ℚ
deriving DecidableEq, Repr

/-- The LocationRecord fields the distance query reads. -/
structure LocationRecord where
  mobile_id : Nat
  recorded_at : Int
  point : GeoPoint
  processed : Bool
deriving DecidableEq, Repr

/-- Ordering by recorded time (`order_by('recorded_at')`). -/
def recordedLe (a b : LocationRecord) : Prop :=
  a.recorded_at ≤ b.recorded_at

instance : DecidableRel recordedLe := fun a b =>
  inferInstanceAs (Decidable (a.recorded_at ≤ b.recorded_at))

instance : IsTotal LocationRecord recordedLe :=
  ⟨fun a b => Int.le_total a.recorded_at b.recorded_at⟩

instance : IsTrans LocationRecord recordedLe :=
  ⟨fun _ _ _ hab hbc => le_trans hab hbc⟩

/-- The ORM query in _calculate_session_distance: the rider's samples with
`sync_status='processed'` and `started_at <= recorded_at <= ended_at`,
ordered by recorded time. -/
def session_locations (samples : List LocationRecord)
    (started_at ended_at : Int) : List LocationRecord :=
  (samples.filter fun r =>
      r.processed && decide (started_at ≤ r.recorded_at) &&
        decide (r.recorded_at ≤ ended_at)).insertionSort recordedLe

/-- The accumulation loop of _calculate_session_distance: `previous_location`
starts at None; each iteration with a previous point adds
`previous.distance(current) / 1000` to the running total. -/
def distance_loop (dist : GeoPoint → GeoPoint → ℚ) :
    Option GeoPoint → List GeoPoint → ℚ
  | _, [] => 0
  | none, p :: rest => distance_loop dist (some p) rest
  | some prev, p :: rest => dist prev p / 1000 + distance_loop dist (some p) rest

/-- LocationProcessor._calculate_session_distance for a closed session with
window [started_at, ended_at]. -/
def calculate_session_distance (dist : GeoPoint → GeoPoint → ℚ)
    (samples : List LocationRecord) (started_at ended_at : Int) : ℚ :=
  distance_loop dist none
    ((session_locations samples started_at ended_at).map LocationRecord.point)

/-- The spec's distance law: Σ over consecutive pairs of
`distanceMeters(Pi, Pi+1) / 1000` (0 for fewer than two points). -/
def pair_sum (dist : GeoPoint → GeoPoint → ℚ) : List GeoPoint → ℚ
  | a :: b :: rest => dist a b / 1000 + pair_sum dist (b :: rest)
  | _ => 0

/-! ### Verification cooldowns (apps/verification/models.py,
VerificationCooldown) -/

/-- The verification kinds with configured cooldown windows. -/
inductive VerificationType
  | geofence_join
  | random
  | manual
deriving DecidableEq, Repr

/-- VerificationCooldown.COOLDOWN_PERIODS: geofence_join 60 s, random 300 s,
manual 0 s. -/
def COOLDOWN_PERIODS : VerificationType → Int
  | .geofence_join => 60
  | .random => 300
  | .manual => 0

/-- One VerificationCooldown row (unique per rider and verification type). -/
structure VerificationCooldown where
  last_attempt : Int
  cooldown_until : Int
  attempt_count : Nat
deriving DecidableEq, Repr

/-- VerificationCooldown.is_active: `now < cooldown_until`. -/
def cooldown_is_active (now : Int) (c : VerificationCooldown) : Bool :=
  decide (now < c.cooldown_until)

/-- VerificationCooldown.remaining_seconds: the remaining window while active,
else 0 (`int(...)` is exact on integer-second timestamps). -/
def remaining_seconds (now : Int) (c : VerificationCooldown) : Int :=
  if now < c.cooldown_until then c.cooldown_until - now else 0

/-- VerificationCooldown.check_cooldown: `(can_verify, cooldown_remaining)`
given the rider's cooldown row for this kind, if any. -/
def check_cooldown (now : Int) (row : Option VerificationCooldown) :
    Bool × Int :=
  match row with
  | some c =>
      if cooldown_is_active now c then (false, remaining_seconds now c)
      else (true, 0)
  | none => (true, 0)

/-- VerificationCooldown.set_cooldown: upsert the row with
`cooldown_until = now + period + additional_seconds`, bumping the attempt
count when a row existed. -/
def set_cooldown (now : Int) (vt : VerificationType) (additional_seconds : Int)
    (existing : Option VerificationCooldown) : VerificationCooldown :=
  let until_time := now + COOLDOWN_PERIODS vt + additional_seconds
  match existing with
  | some c =>
      { last_attempt := now
        cooldown_until := until_time
        attempt_count := c.attempt_count + 1 }
  | none =>
      { last_attempt := now
        cooldown_until := until_time
        attempt_count := 1 }

/-! ### Batch ingestion (apps/tracking/views.py sync_locations and
apps/tracking/serializers.py LocationSyncRequestSerializer) -/

/-- A sample in a sync batch, as the view consumes it.  Presence processing is
abstracted to the sample itself: the model only needs to know whether
`processor.process_location` ran for the sample. -/
structure SampleIn where
  mobile_id : Nat
  recorded_at : Int
  point : GeoPoint
deriving DecidableEq, Repr

/-- Server-side ingestion state threaded through one sync_locations call:
the mobile_ids of stored LocationRecords (with multiplicity), the list of
samples for which presence processing ran (in order), and the batch counters
and error list. -/
structure SyncState where
  stored : List Nat
  processed_samples : List SampleIn
  processed_count : Nat
  failed_count : Nat
  errors : List Nat
deriving DecidableEq, Repr

/-- The per-sample body of the sync_locations loop: a sample whose mobile_id
already has a stored LocationRecord is skipped by `continue` (nothing stored,
no processing, no counter or error change); otherwise the record is created,
processed for geofence events, and counted as processed. -/
def process_sample (st : SyncState) (s : SampleIn) : SyncState :=
  if s.mobile_id ∈ st.stored then st
  else
    { st with
      stored := st.stored ++ [s.mobile_id]
      processed_samples := st.processed_samples ++ [s]
      processed_count := st.processed_count + 1 }

/-- LocationSyncRequestSerializer.validate_locations: at least one sample, at
most 100, and no duplicate mobile_ids within the batch. -/
def validate_locations (batch : List SampleIn) : Bool :=
  !batch.isEmpty && decide (batch.length ≤ 100) &&
    (batch.map SampleIn.mobile_id).Nodup

/-- sync_locations: the batch is rejected (400, no state mutated) when
serializer validation fails; otherwise the samples are folded through the
per-sample loop in batch order. -/
def sync_locations (st : SyncState) (batch : List SampleIn) :
    Option SyncState :=
  if validate_locations batch then some (batch.foldl process_sample st)
  else none

/-! ### Capacity allocation (apps/campaigns/models.py,
Campaign.assign_rider_to_best_geofence) -/

/-- The geofences of one campaign. -/
structure Campaign where
  geofences : List CampaignGeofence
deriving DecidableEq, Repr

/-- Descending sort on a Bool flag (`-is_high_priority`): True first. -/
def hp_rank (g : CampaignGeofence) : Nat :=
  if g.is_high_priority then 0 else 1

/-- The order_by key `('-is_high_priority', 'priority', 'current_riders')` as
a total preorder: high-priority flag descending, then priority ascending,
then current occupancy ascending. -/
def geoLe (g g' : CampaignGeofence) : Prop :=
  hp_rank g < hp_rank g' ∨
    (hp_rank g = hp_rank g' ∧
      (g.priority < g'.priority ∨
        (g.priority = g'.priority ∧ g.current_riders ≤ g'.current_riders)))

instance : DecidableRel geoLe := fun g g' => by
  unfold geoLe; infer_instance

instance : IsTotal CampaignGeofence geoLe :=
  ⟨fun g g' => by unfold geoLe; omega⟩

instance : IsTrans CampaignGeofence geoLe :=
  ⟨fun a b c hab hbc => by
    unfold geoLe at hab hbc ⊢; omega⟩

/-- Campaign.get_available_geofences: the geofences with status 'active',
current time inside the start/end window (get_active_geofences), and
`current_riders < max_riders`. -/
def get_available_geofences (c : Campaign) : List CampaignGeofence :=
  c.geofences.filter fun g =>
    g.status_active && g.in_window && decide (g.current_riders < g.max_riders)

/-- Increment the occupancy counter of a geofence row. -/
def increment_riders (g : CampaignGeofence) : CampaignGeofence :=
  { g with current_riders := g.current_riders + 1 }

/-- Campaign.assign_rider_to_best_geofence: order the available geofences by
the priority key, walk them in order, and at the first one passing
can_assign_rider create the assignment and increment that geofence's
occupancy counter; return None when no geofence qualifies.  The loop over the
ordered queryset is `List.find?`; the returned value is the id of the chosen
geofence together with the campaign whose matching row was incremented
(list-entry identity stands for database-row identity). -/
def assign_rider_to_best_geofence (c : Campaign) : Option (Nat × Campaign) :=
  match ((get_available_geofences c).insertionSort geoLe).find?
      CampaignGeofence.can_assign_rider with
  | some g =>
      some (g.id,
        ⟨c.geofences.map fun h => if h = g then increment_riders h else h⟩)
  | none => none

/-- GeofenceJoinService.create_join_with_verification: the occupancy counter
is incremented only when the geofence assignment row was newly created
(`geo_created`); the capacity gate (can_assign_rider) ran earlier, in
CampaignJoinSerializer.validate. -/
def join_with_verification_increment (g : CampaignGeofence)
    (geo_created : Bool) : CampaignGeofence :=
  if geo_created then increment_riders g else g

/-! ### Concurrent joins on one zone (claim C1)

Both join paths read the geofence row, evaluate can_assign_rider on the values
just read, and later write back `snapshot.current_riders + 1`
(`geofence.current_riders += 1; geofence.save(...)` stores the absolute value
computed from the snapshot).  Two concurrent requests for the same zone are
modelled as an interleaving of these read-check / write steps on a shared
counter. -/

/-- Program counter of one in-flight join request for a fixed zone:
`start` before the row is read; `checked n` after reading snapshot occupancy
`n` and passing the capacity check; `rejected` after failing it; `done` after
writing `n + 1` back. -/
inductive JoinPc
  | start
  | checked (snapshot_riders : Nat)
  | rejected
  | done
deriving DecidableEq, Repr

/-- Shared state of one zone's occupancy counter with two concurrent join
requests. -/
structure JoinState where
  riders : Nat
  t1 : JoinPc
  t2 : JoinPc
deriving DecidableEq, Repr

/-- Interleaving semantics of two concurrent joins against one zone with
capacity `maxR`: each request atomically reads the current counter and checks
`can_assign_rider` (whose capacity conjunct is `snapshot < maxR`; the activity
and budget conjuncts concern fields these operations never write), then in a
separate step writes back `snapshot + 1`. -/
inductive JoinStep (maxR : Nat) : JoinState → JoinState → Prop
  | check_pass1 (s : JoinState) :
      s.t1 = JoinPc.start → s.riders < maxR →
      JoinStep maxR s { s with t1 := JoinPc.checked s.riders }
  | check_fail1 (s : JoinState) :
      s.t1 = JoinPc.start → ¬ s.riders < maxR →
      JoinStep maxR s { s with t1 := JoinPc.rejected }
  | write1 (s : JoinState) (n : Nat) :
      s.t1 = JoinPc.checked n →
      JoinStep maxR s { s with riders := n + 1, t1 := JoinPc.done }
  | check_pass2 (s : JoinState) :
      s.t2 = JoinPc.start → s.riders < maxR →
      JoinStep maxR s { s with t2 := JoinPc.checked s.riders }
  | check_fail2 (s : JoinState) :
      s.t2 = JoinPc.start → ¬ s.riders < maxR →
      JoinStep maxR s { s with t2 := JoinPc.rejected }
  | write2 (s : JoinState) (n : Nat) :
      s.t2 = JoinPc.checked n →
      JoinStep maxR s { s with riders := n + 1, t2 := JoinPc.done }

/-- The states reachable from `s0` by interleaved execution of the two join
requests. -/
def JoinReachable (maxR : Nat) (s0 s : JoinState) : Prop :=
  Relation.ReflTransGen (JoinStep maxR) s0 s

/-! ### Concrete sample data used by witnesses and counterexamples -/

/-- A geofence with rate_per_km 200, rate_per_hour 500, one free slot and
positive budget, all activity flags set. -/
def gExample : CampaignGeofence :=
  { id := 1
    status_active := true
    in_window := true
    campaign_active := true
    priority := 1
    is_high_priority := false
    radius_meters := 500
    budget := 10000
    spent := 0
    rate_per_km := 200
    rate_per_hour := 500
    fixed_daily_rate := 1500
    max_riders := 5
    current_riders := 0 }

/-- The serializer field
`earnings_type = ChoiceField(choices=EarningsCalculation.EARNINGS_TYPE_CHOICES)`
accepts every one of the six model choices. -/
def EARNINGS_TYPE_CHOICES : List EarningsType :=
  [.distance, .time, .fixed, .hybrid, .bonus, .correction]

/-! ### Claim theorems: earnings -/

/-- Claim C2: the manual earnings amount is determined by the rate kind —
fixed gives the geofence's fixed_daily_rate regardless of distance and
duration, distance gives distance_km × rate_per_km, time gives
duration_hours × rate_per_hour, hybrid gives the sum of both; with
distance_km = 12.5, rate_per_km = 200, duration_hours = 3, rate_per_hour = 500
the hybrid amount is 4000. -/
theorem manual_earnings_rate_dispatch (g : CampaignGeofence) (d h : ℚ) :
    calculate_amount_manual g EarningsType.fixed d h = g.fixed_daily_rate ∧
    calculate_amount_manual g EarningsType.distance d h = d * g.rate_per_km ∧
    calculate_amount_manual g EarningsType.time d h = h * g.rate_per_hour ∧
    calculate_amount_manual g EarningsType.hybrid d h =
      d * g.rate_per_km + h * g.rate_per_hour ∧
    (g.rate_per_km = 200 → g.rate_per_hour = 500 →
      calculate_amount_manual g EarningsType.hybrid (25 / 2) 3 = 4000) := by
  refine ⟨rfl, rfl, rfl, rfl, fun hk hh => ?_⟩
  unfold calculate_amount_manual
  rw [hk, hh]
  norm_num

/-- Witness for C2 at the spec's concrete example. -/
theorem manual_earnings_rate_dispatch_witness :
    calculate_amount_manual gExample EarningsType.hybrid (25 / 2) 3 = 4000 :=
  (manual_earnings_rate_dispatch gExample (25 / 2) 3).2.2.2.2 rfl rfl

/-- Claim C9: the request serializer accepts earnings_type bonus and
correction, and for both the computed manual amount is exactly 0 regardless
of the supplied distance, duration and the geofence's rates, because the rate
dispatch has no branch for them. -/
theorem bonus_correction_amount_zero (g : CampaignGeofence) (d h : ℚ) :
    EarningsType.bonus ∈ EARNINGS_TYPE_CHOICES ∧
    EarningsType.correction ∈ EARNINGS_TYPE_CHOICES ∧
    calculate_amount_manual g EarningsType.bonus d h = 0 ∧
    calculate_amount_manual g EarningsType.correction d h = 0 := by
  refine ⟨?_, ?_, rfl, rfl⟩ <;> simp [EARNINGS_TYPE_CHOICES]

/-! ### Claim theorems: presence transitions -/

/-- Claim C4: with inside meaning distance ≤ radius + 50 m tolerance, the
check emits exactly one enter event iff the point is inside and there is no
prior event or the prior event was an exit; exactly one exit event iff the
point is outside and the prior event was an enter; and no event in every
other case. -/
theorem geofence_event_transition (d r : ℚ) (last : Option EntryType) :
    geofence_tolerance = 50 ∧
    (check_geofence_event d r last = some EntryType.enter ↔
      d ≤ r + 50 ∧ (last = none ∨ last = some EntryType.exit)) ∧
    (check_geofence_event d r last = some EntryType.exit ↔
      ¬ d ≤ r + 50 ∧ last = some EntryType.enter) ∧
    (check_geofence_event d r last = none ↔
      ¬ (d ≤ r + 50 ∧ (last = none ∨ last = some EntryType.exit)) ∧
      ¬ (¬ d ≤ r + 50 ∧ last = some EntryType.enter)) := by
  refine ⟨rfl, ?_, ?_, ?_⟩ <;>
    · unfold check_geofence_event geofence_tolerance
      split_ifs <;> simp_all

/-! ### Claim theorems: sessions -/

/-- Claim C10: close_session mutates only active sessions — on a completed or
abandoned session it changes nothing — and closing is idempotent: a second
close of an already-closed session never changes its end data. -/
theorem close_session_only_when_active (s s2 : RiderSession)
    (e e' : Nat) (t t' : Int)
    (h : s.status = SessionStatus.completed ∨
      s.status = SessionStatus.abandoned) :
    close_session s e t = s ∧
    close_session (close_session s2 e t) e' t' = close_session s2 e t := by
  have hns : s.status ≠ SessionStatus.active := by
    rcases h with h | h <;> simp [h]
  constructor
  · simp [close_session, hns]
  · by_cases h2 : s2.status = SessionStatus.active
    · simp [close_session, h2]
    · simp [close_session, h2]

/-- Witness for C10 on a concrete completed session. -/
theorem close_session_only_when_active_witness :
    close_session
        { started_at := 0, ended_at := some 90, end_entry := some 4
          duration_minutes := 1, status := SessionStatus.completed } 9 200 =
      { started_at := 0, ended_at := some 90, end_entry := some 4
        duration_minutes := 1, status := SessionStatus.completed } :=
  (close_session_only_when_active _
    { started_at := 0, ended_at := none, end_entry := none
      duration_minutes := 0, status := SessionStatus.active }
    9 9 200 200 (Or.inl rfl)).1

/-- A session opened at t = 0 and still active. -/
def sessionActive0 : RiderSession :=
  { started_at := 0, ended_at := none, end_entry := none
    duration_minutes := 0, status := SessionStatus.active }

/-- Counterexample to C5 as stated: closing the session opened at t = 0 with
an exit at t = 90 s stores duration_minutes = 1 (Python `int()` truncates
90 / 60 = 1.5), while round(90 / 60) = 2. -/
theorem close_session_duration_rounding_counterexample :
    (close_session sessionActive0 4 90).duration_minutes = 1 ∧
    round (((90 : ℚ) - 0) / 60) = 2 ∧
    (close_session sessionActive0 4 90).duration_minutes ≠
      round (((90 : ℚ) - 0) / 60) := by
  have h1 : (close_session sessionActive0 4 90).duration_minutes = 1 := by
    decide
  have h2 : round (((90 : ℚ) - 0) / 60) = 2 := by
    norm_num [round_eq]
  exact ⟨h1, h2, by rw [h1, h2]; decide⟩

/-- Claim C5 (amended): when an active session is closed by an exit event,
ended_at is set to the exit event's timestamp, the end entry reference is set,
the status becomes completed, and duration_minutes equals the difference in
seconds divided by 60 and truncated toward zero (Python `int`), not rounded
to the nearest minute. -/
theorem close_session_sets_end_fields (s : RiderSession) (e : Nat) (t : Int)
    (h : s.status = SessionStatus.active) :
    close_session s e t =
      { started_at := s.started_at
        ended_at := some t
        end_entry := some e
        duration_minutes := (t - s.started_at).tdiv 60
        status := SessionStatus.completed } := by
  simp [close_session, h, calculate_duration]

/-- Witness for the amended C5 on the session opened at t = 0, closed at
t = 90 s: duration is truncated to 1 minute. -/
theorem close_session_sets_end_fields_witness :
    close_session sessionActive0 4 90 =
      { started_at := 0, ended_at := some 90, end_entry := some 4
        duration_minutes := 1, status := SessionStatus.completed } := by
  have h := close_session_sets_end_fields sessionActive0 4 90 rfl
  rw [h]
  decide

/-! ### Claim theorems: cooldown gate -/

/-- Claim C7: the cooldown windows are zone-join 60 s, spot-check (random)
300 s and manual 0 s; after a zone-join attempt at T0 sets the cooldown, a
check at T0 + 30 s is rejected with 30 seconds remaining, and a check at
T0 + 61 s is allowed with 0 remaining. -/
theorem cooldown_windows_and_check (t0 : Int)
    (existing : Option VerificationCooldown) :
    COOLDOWN_PERIODS VerificationType.geofence_join = 60 ∧
    COOLDOWN_PERIODS VerificationType.random = 300 ∧
    COOLDOWN_PERIODS VerificationType.manual = 0 ∧
    check_cooldown (t0 + 30)
        (some (set_cooldown t0 VerificationType.geofence_join 0 existing)) =
      (false, 30) ∧
    check_cooldown (t0 + 61)
        (some (set_cooldown t0 VerificationType.geofence_join 0 existing)) =
      (true, 0) := by
  have huntil :
      (set_cooldown t0 VerificationType.geofence_join 0
          existing).cooldown_until = t0 + 60 := by
    cases existing <;> simp [set_cooldown, COOLDOWN_PERIODS]
  refine ⟨rfl, rfl, rfl, ?_, ?_⟩
  · simp only [check_cooldown, cooldown_is_active, remaining_seconds, huntil]
    have hlt : t0 + 30 < t0 + 60 := by omega
    simp [hlt]
  · simp only [check_cooldown, cooldown_is_active, remaining_seconds, huntil]
    have hge : ¬ t0 + 61 < t0 + 60 := by omega
    simp [hge]

/-! ### Claim theorems: session distance -/

/-- The accumulation loop seeded with a previous point computes the
consecutive-pair sum of that point followed by the remaining points. -/
lemma distance_loop_some_eq_pair_sum (dist : GeoPoint → GeoPoint → ℚ)
    (p : GeoPoint) (l : List GeoPoint) :
    distance_loop dist (some p) l = pair_sum dist (p :: l) := by
  induction l generalizing p with
  | nil => rfl
  | cons q rest ih => simp [distance_loop, pair_sum, ih]

/-- The accumulation loop computes the consecutive-pair sum. -/
lemma distance_loop_eq_pair_sum (dist : GeoPoint → GeoPoint → ℚ)
    (l : List GeoPoint) :
    distance_loop dist none l = pair_sum dist l := by
  cases l with
  | nil => rfl
  | cons p rest =>
      simp [distance_loop, distance_loop_some_eq_pair_sum]

/-- Claim C3: for a closed session, the accumulated distance equals the sum
over consecutive pairs of the rider's processed samples with
started_at ≤ recorded_at ≤ ended_at, taken in recorded-time order, of the
point distance divided by 1000; with fewer than two such samples it is
exactly 0. -/
theorem session_distance_law (dist : GeoPoint → GeoPoint → ℚ)
    (samples : List LocationRecord) (started_at ended_at : Int) :
    calculate_session_distance dist samples started_at ended_at =
      pair_sum dist
        ((session_locations samples started_at ended_at).map
          LocationRecord.point) ∧
    ((session_locations samples started_at ended_at).length < 2 →
      calculate_session_distance dist samples started_at ended_at = 0) := by
  constructor
  · exact distance_loop_eq_pair_sum dist _
  · intro hlen
    rw [calculate_session_distance, distance_loop_eq_pair_sum]
    rcases hpts : session_locations samples started_at ended_at with
      _ | ⟨a, _ | ⟨b, rest⟩⟩
    · rfl
    · rfl
    · rw [hpts] at hlen
      simp at hlen
      omega

/-- Witness for C3: a single-sample window accumulates exactly zero
distance. -/
theorem session_distance_law_witness :
    calculate_session_distance (fun _ _ => 7)
      [{ mobile_id := 1, recorded_at := 5, point := ⟨0, 0⟩,
         processed := true }] 0 100 = 0 :=
  (session_distance_law (fun _ _ => 7)
    [{ mobile_id := 1, recorded_at := 5, point := ⟨0, 0⟩,
       processed := true }] 0 100).2 (by decide)

/-! ### Claim theorems: ingestion idempotence -/

/-- The ingestion state before any batch. -/
def emptySync : SyncState :=
  { stored := [], processed_samples := [], processed_count := 0
    failed_count := 0, errors := [] }

/-- A fixed sample with mobile_id 7. -/
def sDup : SampleIn :=
  { mobile_id := 7, recorded_at := 0, point := ⟨0, 0⟩ }

/-- An ingestion state that already stores mobile_id 7 exactly once. -/
def syncWithSeven : SyncState :=
  { stored := [7], processed_samples := [sDup], processed_count := 1
    failed_count := 0, errors := [] }

/-- A sample whose mobile_id is already stored is skipped without any state
change. -/
lemma process_sample_skip (st : SyncState) (s : SampleIn)
    (h : s.mobile_id ∈ st.stored) : process_sample st s = st := by
  simp [process_sample, h]

/-- Folding a batch through the per-sample loop never adds a second stored
record for a mobile_id that is already stored: its multiplicity is
preserved. -/
lemma foldl_count_preserved (batch : List SampleIn) (st : SyncState) (m : Nat)
    (h : m ∈ st.stored) :
    (batch.foldl process_sample st).stored.count m = st.stored.count m ∧
      m ∈ (batch.foldl process_sample st).stored := by
  induction batch generalizing st with
  | nil => exact ⟨rfl, h⟩
  | cons b rest ih =>
    rw [List.foldl_cons]
    by_cases hb : b.mobile_id ∈ st.stored
    · rw [process_sample_skip st b hb]
      exact ih st h
    · have hstep : process_sample st b =
          { st with
            stored := st.stored ++ [b.mobile_id]
            processed_samples := st.processed_samples ++ [b]
            processed_count := st.processed_count + 1 } := by
        simp [process_sample, hb]
      rw [hstep]
      have hne : b.mobile_id ≠ m := fun he => hb (he ▸ h)
      have hmem2 : m ∈
          ({ st with
             stored := st.stored ++ [b.mobile_id]
             processed_samples := st.processed_samples ++ [b]
             processed_count := st.processed_count + 1 } : SyncState).stored :=
        List.mem_append_left _ h
      have hcount : (st.stored ++ [b.mobile_id]).count m =
          st.stored.count m := by
        rw [List.count_append]
        simp [List.count_singleton', hne]
      obtain ⟨ih1, ih2⟩ := ih _ hmem2
      constructor
      · rw [ih1]
        exact hcount
      · exact ih2

/-- Counterexample to C6 as stated: a batch containing the same mobile_id
twice is rejected outright by serializer validation (no stored sample, no
idempotent success), rather than the duplicate being skipped as a success
no-op. -/
theorem same_batch_duplicate_rejected_counterexample :
    sync_locations emptySync [sDup, sDup] = none ∧
    validate_locations [sDup, sDup] = false := by
  constructor <;> decide

/-- Claim C6 (amended): a sample whose mobile_id already has a stored record
from a previous batch is skipped as an idempotent success no-op — the state
is completely unchanged (so exactly one stored sample remains, no presence
processing runs, and neither the failure count nor the error list grows),
and any accepted batch preserves the single stored copy; a batch that
repeats a mobile_id within itself, however, is rejected by serializer
validation before any sample is processed. -/
theorem duplicate_sample_idempotent (st : SyncState) (s : SampleIn)
    (batch : List SampleIn) (hmem : s.mobile_id ∈ st.stored)
    (hcount : st.stored.count s.mobile_id = 1) :
    process_sample st s = st ∧
    (∀ st', sync_locations st batch = some st' →
      st'.stored.count s.mobile_id = 1) ∧
    (¬ (batch.map SampleIn.mobile_id).Nodup →
      sync_locations st batch = none) := by
  refine ⟨process_sample_skip st s hmem, ?_, ?_⟩
  · intro st' hst'
    unfold sync_locations at hst'
    by_cases hv : validate_locations batch = true
    · rw [if_pos hv] at hst'
      obtain rfl : batch.foldl process_sample st = st' :=
        Option.some.inj hst'
      rw [(foldl_count_preserved batch st s.mobile_id hmem).1]
      exact hcount
    · rw [if_neg hv] at hst'
      exact absurd hst' (by simp)
  · intro hnodup
    have hfalse : validate_locations batch = false := by
      unfold validate_locations
      have : decide (batch.map SampleIn.mobile_id).Nodup = false :=
        decide_eq_false hnodup
      simp [this]
    unfold sync_locations
    rw [hfalse]
    simp

/-- Witness for the amended C6: replaying mobile_id 7 against a state that
already stores it changes nothing. -/
theorem duplicate_sample_idempotent_witness :
    process_sample syncWithSeven sDup = syncWithSeven :=
  (duplicate_sample_idempotent syncWithSeven sDup [sDup] (by decide)
    (by decide)).1

/-! ### Claim theorems: capacity allocation -/

/-- The order_by key is reflexive. -/
lemma geoLe_refl (g : CampaignGeofence) : geoLe g g := by
  unfold geoLe
  omega

/-- In a list sorted by the priority key, the first element passing a test is
key-below every element of the list passing the test. -/
lemma sorted_find?_minimal {l : List CampaignGeofence}
    {p : CampaignGeofence → Bool} {x : CampaignGeofence}
    (hs : l.Sorted geoLe) (hf : l.find? p = some x) :
    ∀ y ∈ l, p y = true → geoLe x y := by
  induction l with
  | nil => simp at hf
  | cons a l ih =>
    rw [List.sorted_cons] at hs
    by_cases ha : p a
    · rw [List.find?_cons_of_pos _ ha] at hf
      obtain rfl : a = x := Option.some.inj hf
      intro y hy _
      rcases List.mem_cons.mp hy with rfl | hyl
      · exact geoLe_refl _
      · exact hs.1 y hyl
    · rw [List.find?_cons_of_neg _ ha] at hf
      intro y hy hpy
      rcases List.mem_cons.mp hy with rfl | hyl
      · exact absurd hpy ha
      · exact ih hs.2 hf y hyl hpy

/-- can_assign_rider implies the geofence is below capacity. -/
lemma can_assign_not_full {g : CampaignGeofence}
    (h : g.can_assign_rider = true) :
    g.current_riders < g.max_riders := by
  unfold CampaignGeofence.can_assign_rider CampaignGeofence.is_active
    CampaignGeofence.is_full at h
  simp at h
  omega

/-- A geofence passing can_assign_rider is in the ordered available list the
allocator walks. -/
lemma can_assign_mem_sorted_avail {c : Campaign} {g : CampaignGeofence}
    (hg : g ∈ c.geofences) (hca : g.can_assign_rider = true) :
    g ∈ (get_available_geofences c).insertionSort geoLe := by
  rw [List.mem_insertionSort]
  unfold get_available_geofences
  rw [List.mem_filter]
  refine ⟨hg, ?_⟩
  unfold CampaignGeofence.can_assign_rider CampaignGeofence.is_active
    CampaignGeofence.is_full at hca
  simp at hca
  simp [hca]

/-- Every geofence of the ordered available list is a geofence of the
campaign. -/
lemma mem_sorted_avail_mem_geofences {c : Campaign} {g : CampaignGeofence}
    (hg : g ∈ (get_available_geofences c).insertionSort geoLe) :
    g ∈ c.geofences := by
  rw [List.mem_insertionSort] at hg
  exact (List.mem_filter.mp hg).1

/-- Claim C8: assign_rider_to_best_geofence returns None exactly when no
geofence of the campaign is active, below capacity and with remaining budget;
otherwise it picks, among qualifying geofences, one minimal for the key
(high-priority flag descending, priority ascending, occupancy ascending),
creates the assignment for it, and increments exactly that geofence's
occupancy counter by one. -/
theorem assign_best_geofence_spec (c : Campaign) :
    (assign_rider_to_best_geofence c = none ↔
      ∀ g ∈ c.geofences, g.can_assign_rider = false) ∧
    (∀ gid c', assign_rider_to_best_geofence c = some (gid, c') →
      ∃ g ∈ c.geofences, g.id = gid ∧ g.can_assign_rider = true ∧
        (∀ g' ∈ c.geofences, g'.can_assign_rider = true → geoLe g g') ∧
        c' = ⟨c.geofences.map
          fun h => if h = g then increment_riders h else h⟩) := by
  constructor
  · constructor
    · intro hnone g hg
      unfold assign_rider_to_best_geofence at hnone
      cases hfind : ((get_available_geofences c).insertionSort geoLe).find?
          CampaignGeofence.can_assign_rider with
      | some g' => rw [hfind] at hnone; exact absurd hnone (by simp)
      | none =>
        rw [List.find?_eq_none] at hfind
        by_cases hca : g.can_assign_rider = true
        · exact absurd hca
            (by simpa using hfind g (can_assign_mem_sorted_avail hg hca))
        · simpa using hca
    · intro hall
      unfold assign_rider_to_best_geofence
      have hnone : ((get_available_geofences c).insertionSort geoLe).find?
          CampaignGeofence.can_assign_rider = none := by
        rw [List.find?_eq_none]
        intro g hg
        simp [hall g (mem_sorted_avail_mem_geofences hg)]
      rw [hnone]
  · intro gid c' hsome
    unfold assign_rider_to_best_geofence at hsome
    cases hfind : ((get_available_geofences c).insertionSort geoLe).find?
        CampaignGeofence.can_assign_rider with
    | none => rw [hfind] at hsome; exact absurd hsome (by simp)
    | some g =>
      rw [hfind] at hsome
      have hpair := Option.some.inj hsome
      have hid : g.id = gid := congrArg Prod.fst hpair
      have hc' : (⟨c.geofences.map
          fun h => if h = g then increment_riders h else h⟩ : Campaign) = c' :=
        congrArg Prod.snd hpair
      refine ⟨g, mem_sorted_avail_mem_geofences
        (List.mem_of_find?_eq_some hfind), hid, List.find?_some hfind,
        ?_, hc'.symm⟩
      intro g' hg' hca'
      exact sorted_find?_minimal (List.sorted_insertionSort geoLe _) hfind g'
        (can_assign_mem_sorted_avail hg' hca') hca'

/-- A campaign holding just the example geofence. -/
def cExample : Campaign := ⟨[gExample]⟩

/-- The example campaign after one assignment. -/
def cExampleInc : Campaign := ⟨[increment_riders gExample]⟩

/-- The example geofence passes every eligibility check. -/
lemma gExample_can_assign : gExample.can_assign_rider = true := by
  simp [CampaignGeofence.can_assign_rider, CampaignGeofence.is_active,
    CampaignGeofence.is_full, CampaignGeofence.remaining_budget, gExample]

/-- On the one-geofence example campaign the allocator picks the example
geofence and increments it. -/
lemma assign_cExample :
    assign_rider_to_best_geofence cExample = some (1, cExampleInc) := by
  unfold assign_rider_to_best_geofence
  have hfilter : get_available_geofences cExample = [gExample] := by
    simp [get_available_geofences, cExample, gExample]
  rw [hfilter]
  have hsort : List.insertionSort geoLe [gExample] = [gExample] := rfl
  rw [hsort, List.find?_cons_of_pos _ gExample_can_assign]
  simp [cExampleInc, cExample, increment_riders, gExample]

/-- Witness for C8 on the one-geofence example campaign. -/
theorem assign_best_geofence_spec_witness :
    ∃ g ∈ cExample.geofences, g.id = 1 ∧ g.can_assign_rider = true ∧
      (∀ g' ∈ cExample.geofences, g'.can_assign_rider = true → geoLe g g') ∧
      cExampleInc = ⟨cExample.geofences.map
        fun h => if h = g then increment_riders h else h⟩ :=
  (assign_best_geofence_spec cExample).2 1 cExampleInc assign_cExample

/-! ### Claim theorems: occupancy invariant -/

/-- Inductive invariant of the two-request interleaving: the shared counter
is within capacity and every passed check was passed on a snapshot below
capacity. -/
def JoinInv (maxR : Nat) (s : JoinState) : Prop :=
  s.riders ≤ maxR ∧ (∀ n, s.t1 = JoinPc.checked n → n < maxR) ∧
    (∀ n, s.t2 = JoinPc.checked n → n < maxR)

/-- Every interleaved step preserves the invariant: in particular a write
stores `snapshot + 1` for a snapshot that passed the capacity check, which is
at most the capacity. -/
lemma joinStep_preserves {maxR : Nat} {s s' : JoinState}
    (hstep : JoinStep maxR s s') (hinv : JoinInv maxR s) :
    JoinInv maxR s' := by
  obtain ⟨hr, h1, h2⟩ := hinv
  cases hstep with
  | check_pass1 hpc hlt =>
      exact ⟨hr, fun n hn => by
        simp at hn
        omega, h2⟩
  | check_fail1 hpc hge =>
      exact ⟨hr, fun n hn => by simp at hn, h2⟩
  | write1 n hpc =>
      exact ⟨by
        show n + 1 ≤ maxR
        have := h1 n hpc
        omega, fun m hm => by simp at hm, h2⟩
  | check_pass2 hpc hlt =>
      exact ⟨hr, h1, fun n hn => by
        simp at hn
        omega⟩
  | check_fail2 hpc hge =>
      exact ⟨hr, h1, fun n hn => by simp at hn⟩
  | write2 n hpc =>
      exact ⟨by
        show n + 1 ≤ maxR
        have := h2 n hpc
        omega, h1, fun m hm => by simp at hm⟩

/-- The invariant holds in every reachable state. -/
lemma joinReachable_inv {maxR : Nat} {s0 s : JoinState}
    (h0 : JoinInv maxR s0) (hr : JoinReachable maxR s0 s) :
    JoinInv maxR s := by
  induction hr with
  | refl => exact h0
  | tail _ hstep ih => exact joinStep_preserves hstep ih

/-- Claim C1: the occupancy counter never exceeds max_riders.  In every state
reachable by interleaving two concurrent join requests for the same zone the
shared counter stays within capacity, because each path writes back
`snapshot + 1` for a snapshot that passed can_assign_rider's capacity check;
sequentially, assign_rider_to_best_geofence preserves
`current_riders ≤ max_riders` for every geofence of the campaign, and the
join-with-verification increment, guarded by the serializer's
can_assign_rider validation, keeps the counter within capacity. -/
theorem occupancy_counter_invariant (maxR : Nat) (s0 s : JoinState)
    (c : Campaign) (g : CampaignGeofence) (geo_created : Bool)
    (h0 : s0.riders ≤ maxR) (ht1 : s0.t1 = JoinPc.start)
    (ht2 : s0.t2 = JoinPc.start)
    (hreach : JoinReachable maxR s0 s)
    (hc : ∀ g' ∈ c.geofences, g'.current_riders ≤ g'.max_riders)
    (hg : g.can_assign_rider = true) :
    s.riders ≤ maxR ∧
    (∀ gid c', assign_rider_to_best_geofence c = some (gid, c') →
      ∀ g' ∈ c'.geofences, g'.current_riders ≤ g'.max_riders) ∧
    (join_with_verification_increment g geo_created).current_riders ≤
      g.max_riders := by
  refine ⟨?_, ?_, ?_⟩
  · have hinv0 : JoinInv maxR s0 := by
      refine ⟨h0, fun n hn => ?_, fun n hn => ?_⟩
      · rw [ht1] at hn; exact absurd hn (by simp)
      · rw [ht2] at hn; exact absurd hn (by simp)
    exact (joinReachable_inv hinv0 hreach).1
  · intro gid c' hsome
    unfold assign_rider_to_best_geofence at hsome
    cases hfind : ((get_available_geofences c).insertionSort geoLe).find?
        CampaignGeofence.can_assign_rider with
    | none => rw [hfind] at hsome; exact absurd hsome (by simp)
    | some gf =>
      rw [hfind] at hsome
      have hpair := Option.some.inj hsome
      rw [Prod.mk.injEq] at hpair
      obtain ⟨-, hc'⟩ := hpair
      have hcan : gf.can_assign_rider = true := List.find?_some hfind
      intro g' hg'
      rw [← hc'] at hg'
      simp only [List.mem_map] at hg'
      obtain ⟨h0', hmem0, heq⟩ := hg'
      by_cases hcase : h0' = gf
      · rw [hcase, if_pos rfl] at heq
        rw [← heq]
        show gf.current_riders + 1 ≤ gf.max_riders
        have := can_assign_not_full hcan
        omega
      · rw [if_neg hcase] at heq
        rw [← heq]
        exact hc h0' hmem0
  · have hlt := can_assign_not_full hg
    cases geo_created with
    | true => simpa [join_with_verification_increment, increment_riders]
        using hlt
    | false => simpa [join_with_verification_increment] using le_of_lt hlt

/-- Witness for C1 at capacity 1 with the example geofence. -/
theorem occupancy_counter_invariant_witness :
    (join_with_verification_increment gExample true).current_riders ≤
      gExample.max_riders :=
  (occupancy_counter_invariant 1 ⟨0, JoinPc.start, JoinPc.start⟩
    ⟨0, JoinPc.start, JoinPc.start⟩ cExample gExample true (by decide) rfl rfl
    Relation.ReflTransGen.refl
    (by
      intro g' hg'
      simp [cExample] at hg'
      simp [hg', gExample])
    gExample_can_assign).2.2

end Stika
